import Mathlib

/-!
Verification of the astrojs-wp-integration package against its specification.

The development shallowly embeds the parts of the TypeScript source the claims
are about: the cookie-merging login handshake and session store of the auth
bridge (src/index.ts, auth module), the REST client's pagination loop and
singular lookups (src/client), and the filter-to-query-parameter translation
(src/client/types.ts, filterToParams).

JavaScript Maps and plain string-keyed objects are modelled as association
lists in insertion order: setting an existing key overwrites its value in
place (keeping its original position), setting a fresh key appends, and
deletion removes the entry.
-/

namespace WPIntegration

/-- Model of JS Map.get / object property read: first entry with the key. -/
def mapGet {α : Type} : List (String × α) → String → Option α
  | [], _ => none
  | (k', v) :: rest, k => if k' = k then some v else mapGet rest k

/-- Model of JS Map.set / object property assignment: overwrite in place or append. -/
def mapSet {α : Type} : List (String × α) → String → α → List (String × α)
  | [], k, v => [(k, v)]
  | (k', v') :: rest, k, v =>
      if k' = k then (k, v) :: rest else (k', v') :: mapSet rest k v

/-- Model of JS Map.delete: remove the entry with the key. -/
def mapDelete {α : Type} (m : List (String × α)) (k : String) : List (String × α) :=
  m.filter (fun p => decide (p.1 ≠ k))

/-- Keys of an association-list map. -/
def mapKeys {α : Type} (m : List (String × α)) : List String :=
  m.map (fun p => p.1)

theorem mapKeys_eq_map {α : Type} (m : List (String × α)) :
    mapKeys m = m.map (fun p => p.1) := rfl

theorem mapKeys_cons {α : Type} (p : String × α) (rest : List (String × α)) :
    mapKeys (p :: rest) = p.1 :: mapKeys rest := rfl

/-- Value of the last occurrence of a key in a list of (key, value) pairs. -/
def lastValue {α : Type} (k : String) : List (String × α) → Option α
  | [] => none
  | (k', v) :: rest =>
      match lastValue k rest with
      | some w => some w
      | none => if k' = k then some v else none

theorem mapGet_mapSet {α : Type} (m : List (String × α)) (k k' : String) (v : α) :
    mapGet (mapSet m k v) k' = if k = k' then some v else mapGet m k' := by
  induction m with
  | nil => simp [mapGet, mapSet]
  | cons p rest ih =>
      obtain ⟨k₁, v₁⟩ := p
      by_cases h1 : k₁ = k
      · subst h1
        by_cases h2 : k₁ = k'
        · subst h2; simp [mapGet, mapSet]
        · simp [mapGet, mapSet, h2]
      · by_cases h2 : k₁ = k'
        · subst h2
          have : k ≠ k₁ := fun h => h1 h.symm
          simp [mapGet, mapSet, h1, this]
        · simp [mapGet, mapSet, h1, h2, ih]

theorem mapGet_mapDelete_self {α : Type} (m : List (String × α)) (k : String) :
    mapGet (mapDelete m k) k = none := by
  induction m with
  | nil => rfl
  | cons p rest ih =>
      obtain ⟨k₁, v₁⟩ := p
      by_cases h : k₁ = k
      · simp [mapDelete, h] at ih ⊢
        exact ih
      · simp [mapDelete, h] at ih ⊢
        simpa [mapGet, h] using ih

theorem mapGet_mapDelete_other {α : Type} (m : List (String × α)) (k k' : String)
    (h : k' ≠ k) : mapGet (mapDelete m k) k' = mapGet m k' := by
  induction m with
  | nil => rfl
  | cons p rest ih =>
      obtain ⟨k₁, v₁⟩ := p
      by_cases h1 : k₁ = k
      · subst h1
        have : k₁ ≠ k' := fun hh => h hh.symm
        simp [mapDelete, mapGet, this] at ih ⊢
        exact ih
      · by_cases h2 : k₁ = k'
        · subst h2
          simp [mapDelete, mapGet, h1]
        · simp [mapDelete, mapGet, h1, h2] at ih ⊢
          exact ih

theorem mapKeys_mapSet_mem {α : Type} (m : List (String × α)) (k : String) (v : α) :
    k ∈ mapKeys m → mapKeys (mapSet m k v) = mapKeys m := by
  induction m with
  | nil => intro h; simp [mapKeys] at h
  | cons p rest ih =>
      obtain ⟨k₁, v₁⟩ := p
      intro h
      by_cases h1 : k₁ = k
      · simp [mapKeys, mapSet, h1]
      · have hmem : k ∈ mapKeys rest := by
          simp [mapKeys] at h
          rcases h with h | h
          · exact absurd h.symm h1
          · simpa [mapKeys] using h
        simp [mapKeys, mapSet, h1]
        simpa [mapKeys] using ih hmem

theorem mapKeys_mapSet_not_mem {α : Type} (m : List (String × α)) (k : String) (v : α) :
    k ∉ mapKeys m → mapKeys (mapSet m k v) = mapKeys m ++ [k] := by
  induction m with
  | nil => intro _; simp [mapKeys, mapSet]
  | cons p rest ih =>
      obtain ⟨k₁, v₁⟩ := p
      intro h
      by_cases h1 : k₁ = k
      · exfalso; exact h (by simp [mapKeys, h1])
      · have hrest : k ∉ mapKeys rest := fun hm => h (by simp [mapKeys]; right; simpa [mapKeys] using hm)
        simp [mapKeys, mapSet, h1]
        simpa [mapKeys] using ih hrest

theorem nodup_mapKeys_mapSet {α : Type} (m : List (String × α)) (k : String) (v : α)
    (h : (mapKeys m).Nodup) : (mapKeys (mapSet m k v)).Nodup := by
  by_cases hmem : k ∈ mapKeys m
  · rwa [mapKeys_mapSet_mem m k v hmem]
  · rw [mapKeys_mapSet_not_mem m k v hmem]
    simpa [List.nodup_append] using ⟨h, hmem⟩

/-- One step of inserting a parsed (name, value) pair into a cookie map. -/
def setPair {α : Type} (m : List (String × α)) (p : String × α) : List (String × α) :=
  mapSet m p.1 p.2

theorem mapGet_foldl_setPair {α : Type} (L : List (String × α))
    (m : List (String × α)) (k : String) :
    mapGet (L.foldl setPair m) k =
      match lastValue k L with
      | some w => some w
      | none => mapGet m k := by
  induction L generalizing m with
  | nil => simp [lastValue]
  | cons p rest ih =>
      obtain ⟨k₁, v₁⟩ := p
      rw [List.foldl_cons, ih]
      show _ = (match lastValue k ((k₁, v₁) :: rest) with
        | some w => some w
        | none => mapGet m k)
      rw [show lastValue k ((k₁, v₁) :: rest) =
          (match lastValue k rest with
            | some w => some w
            | none => if k₁ = k then some v₁ else none) from rfl]
      cases hrest : lastValue k rest with
      | some w => simp
      | none =>
          by_cases h1 : k₁ = k
          · subst h1
            simp [setPair, mapGet_mapSet]
          · simp [setPair, mapGet_mapSet, h1]

theorem nodup_mapKeys_foldl_setPair {α : Type} (L : List (String × α))
    (m : List (String × α)) (h : (mapKeys m).Nodup) :
    (mapKeys (L.foldl setPair m)).Nodup := by
  induction L generalizing m with
  | nil => simpa using h
  | cons p rest ih =>
      rw [List.foldl_cons]
      exact ih _ (nodup_mapKeys_mapSet _ _ _ h)

/-!
String primitives. The TypeScript code uses String.prototype.split, trim and
startsWith; they are embedded here as structurally recursive functions on the
character list of a string so that concrete instances reduce inside the
kernel. jsTrim strips the ASCII whitespace characters relevant to cookie
headers, matching JavaScript trim on such strings.
-/

/-- Prefix test on character lists (JS String.prototype.startsWith). -/
def charsStartWith : List Char → List Char → Bool
  | _, [] => true
  | [], _ :: _ => false
  | c :: cs, p :: ps => c = p && charsStartWith cs ps

/-- JS String.prototype.startsWith. -/
def strStartsWith (s pre : String) : Bool :=
  charsStartWith s.toList pre.toList

/-- Split a character list at every occurrence of a separator character. -/
def splitList (sep : Char) : List Char → List (List Char)
  | [] => [[]]
  | c :: cs =>
      let rest := splitList sep cs
      if c = sep then [] :: rest
      else
        match rest with
        | [] => [[c]]
        | r :: rs => (c :: r) :: rs

/-- JS String.prototype.split with a one-character separator. -/
def splitOnChar (sep : Char) (s : String) : List String :=
  (splitList sep s.toList).map String.mk

/-- ASCII whitespace as stripped by JS String.prototype.trim. -/
def isJsWhitespace (c : Char) : Bool :=
  c = ' ' || c = '\t' || c = '\n' || c = '\r'

/-- JS String.prototype.trim. -/
def jsTrim (s : String) : String :=
  String.mk (((s.toList.dropWhile isJsWhitespace).reverse.dropWhile isJsWhitespace).reverse)

/-!
Cookie header handling, embedded from src/index.ts (auth module):
toCookieHeader, mergeCookieHeaders and hasWordPressLoginCookie.
-/

/-- Embeds one iteration body of mergeCookieHeaders: parse one part of a split
cookie header into a (name, value) pair, skipping blank parts, parts whose
first separator index is at most zero, and parts with an empty name. -/
def parsePart (part : String) : Option (String × String) :=
  let trimmed := jsTrim part
  if trimmed = "" then none
  else
    match trimmed.toList.findIdx? (fun c => c = '=') with
    | none => none
    | some 0 => none
    | some i =>
        let name := jsTrim (String.mk (trimmed.toList.take i))
        let value := jsTrim (String.mk (trimmed.toList.drop (i + 1)))
        if name = "" then none else some (name, value)

/-- Pairs contributed by one header argument of mergeCookieHeaders: undefined
and empty headers are skipped, otherwise the header is split on semicolons
and each part parsed. -/
def headerPairs (header : Option String) : List (String × String) :=
  match header with
  | none => []
  | some s => if s = "" then [] else (splitOnChar ';' s).filterMap parsePart

/-- All (name, value) pairs parsed from the header list, in encounter order. -/
def parsedPairs : List (Option String) → List (String × String)
  | [] => []
  | h :: rest => headerPairs h ++ parsedPairs rest

/-- The cookie Map built by mergeCookieHeaders before rendering. -/
def mergeMap (headers : List (Option String)) : List (String × String) :=
  headers.foldl (fun m h => (headerPairs h).foldl setPair m) []

/-- Embeds mergeCookieHeaders from src/index.ts: merge several Cookie header
strings into one normalized header value (Map insertion, later values win). -/
def mergeCookieHeaders (headers : List (Option String)) : String :=
  String.intercalate "; " ((mergeMap headers).map (fun p => p.1 ++ "=" ++ p.2))

/-- Embeds toCookieHeader from src/index.ts: keep the name=value part of each
Set-Cookie value, drop empties, and join with a semicolon separator. -/
def toCookieHeader (setCookieHeaders : List String) : String :=
  String.intercalate "; "
    ((setCookieHeaders.map (fun c => jsTrim ((splitOnChar ';' c).headD ""))).filter
      (fun s => decide (s ≠ "")))

/-- Embeds hasWordPressLoginCookie from src/index.ts: check for the WordPress
logged-in cookie marker in a Cookie header. -/
def hasWordPressLoginCookie (cookieHeader : String) : Bool :=
  (splitOnChar ';' cookieHeader).any (fun part =>
    let t := jsTrim part
    strStartsWith t "wordpress_logged_in_" || strStartsWith t "wordpress_sec_")

theorem mergeMap_eq_foldl_parsedPairs (headers : List (Option String)) :
    mergeMap headers = (parsedPairs headers).foldl setPair [] := by
  suffices h : ∀ (hs : List (Option String)) (m : List (String × String)),
      hs.foldl (fun acc hd => (headerPairs hd).foldl setPair acc) m =
        (parsedPairs hs).foldl setPair m from h headers []
  intro hs
  induction hs with
  | nil => intro m; rfl
  | cons hd rest ih =>
      intro m
      rw [List.foldl_cons, ih, parsedPairs, List.foldl_append]

/-!
Auth bridge session store and redirect sanitization, embedded from
src/index.ts.
-/

/-- In-memory authentication session record (WordPressAuthSession). -/
structure WordPressAuthSession where
  id : String
  userId : Nat
  cookies : String
  expiresAt : Nat
  deriving DecidableEq, Repr

/-- Process-local session store: a JS Map from session id to session. -/
abbrev SessionStore : Type := List (String × WordPressAuthSession)

/-- Embeds sanitizeRedirectPath from src/index.ts. The candidate is optional
because the TypeScript signature allows null and undefined; an empty string is
falsy in the guarding condition. -/
def sanitizeRedirectPath (candidate : Option String) : String :=
  match candidate with
  | none => "/"
  | some c =>
      if c = "" ∨ ¬ strStartsWith c "/" then "/"
      else if strStartsWith c "//" then "/"
      else if c = "/login" ∨ strStartsWith c "/login?" then "/"
      else if c = "/logout" ∨ strStartsWith c "/logout?" then "/"
      else c

/-- Embeds isSessionExpired from src/index.ts, with the current clock reading
passed explicitly in place of Date.now(). -/
def isSessionExpired (session : WordPressAuthSession) (now : Nat) : Bool :=
  session.expiresAt ≤ now

/-- Embeds getSession from src/index.ts: a falsy session id yields null, a
missing entry yields null, a live entry is returned, and an expired entry is
deleted and treated as absent. The updated store is returned alongside the
result to make the Map mutation explicit. -/
def getSession (store : SessionStore) (sessionId : Option String) (now : Nat) :
    Option WordPressAuthSession × SessionStore :=
  match sessionId with
  | none => (none, store)
  | some sid =>
      if sid = "" then (none, store)
      else
        match mapGet store sid with
        | none => (none, store)
        | some session =>
            if ¬ isSessionExpired session now then (some session, store)
            else (none, mapDelete store sid)

/-- Embeds deleteSession from src/index.ts. -/
def deleteSession (store : SessionStore) (sessionId : Option String) : SessionStore :=
  match sessionId with
  | none => store
  | some sid => if sid = "" then store else mapDelete store sid

/-!
Login handshake and login action handler, embedded from src/index.ts
(loginWithWordPressForm and the loginAction handler of
createWordPressAuthBridge). The upstream WordPress server and the network are
modelled by a LoginEnv record holding the outcome of each of the at most
three outbound calls of one login attempt; the clock reading and the random
UUID are passed explicitly.
-/

/-- Result of the authenticated WordPress user record used by the bridge. -/
structure WordPressAuthor where
  id : Nat
  name : String
  deriving DecidableEq, Repr

/-- Set-Cookie values carried by one upstream HTTP response. -/
structure WPHttpResponse where
  setCookies : List String
  deriving Repr

/-- Outcome of one fetch call: a response, or a rejected promise (network
failure) carrying its message. -/
inductive FetchOutcome where
  | ok (response : WPHttpResponse)
  | netError (msg : String)
  deriving Repr

/-- Upstream behaviour for one login attempt: the GET of the login page, the
POST of the credentials, and the current-user verification call. -/
structure LoginEnv where
  initialResponse : FetchOutcome
  loginResponse : FetchOutcome
  currentUser : Except String WordPressAuthor

/-- Errors escaping the login action: an ActionError with a code and message,
or a raw propagated network failure (a rejected fetch is not caught by the
handshake code). -/
inductive LoginErr where
  | actionError (code : String) (message : String)
  | network (msg : String)
  deriving DecidableEq, Repr

/-- The wordpress_test_cookie pair sent with the credential POST. -/
def testCookieHeaderValue : String := "wordpress_test_cookie=WP Cookie check"

/-- Embeds loginWithWordPressForm from src/index.ts: harvest cookies from the
login page, POST credentials, merge the cookies of both responses, and fail
with an UNAUTHORIZED ActionError when the merged header is empty or lacks the
WordPress logged-in marker. A rejected fetch propagates as a network error. -/
def loginWithWordPressForm (env : LoginEnv) : Except LoginErr String :=
  match env.initialResponse with
  | FetchOutcome.netError m => Except.error (LoginErr.network m)
  | FetchOutcome.ok initialResponse =>
      let initialCookies := toCookieHeader initialResponse.setCookies
      let initialCookieHeader :=
        mergeCookieHeaders [some testCookieHeaderValue, some initialCookies]
      match env.loginResponse with
      | FetchOutcome.netError m => Except.error (LoginErr.network m)
      | FetchOutcome.ok loginResponse =>
          let loginCookies := toCookieHeader loginResponse.setCookies
          let mergedCookieHeader :=
            mergeCookieHeaders [some initialCookieHeader, some loginCookies]
          if mergedCookieHeader = "" ∨ ¬ hasWordPressLoginCookie mergedCookieHeader then
            Except.error
              (LoginErr.actionError "UNAUTHORIZED" "WordPress rejected these credentials.")
          else
            Except.ok mergedCookieHeader

/-- Raw auth bridge configuration (WordPressAuthBridgeConfig); optional fields
model the optional TypeScript properties. -/
structure WordPressAuthBridgeConfig where
  baseUrl : String
  cookieName : Option String := none
  cookiePath : Option String := none
  cookieSameSite : Option String := none
  secureCookies : Option Bool := none
  sessionDurationSeconds : Option Nat := none

/-- Configuration after default filling in createWordPressAuthBridge. -/
structure NormalizedAuthConfig where
  baseUrl : String
  cookieName : String
  cookiePath : String
  cookieSameSite : String
  secureCookies : Option Bool
  sessionDurationSeconds : Nat

/-- JS truthiness defaulting for an optional string option: undefined and the
empty string fall back to the default. -/
def jsStringOr (value : Option String) (default : String) : String :=
  match value with
  | none => default
  | some s => if s = "" then default else s

/-- JS truthiness defaulting for an optional number option: undefined and zero
fall back to the default. -/
def jsNatOr (value : Option Nat) (default : Nat) : Nat :=
  match value with
  | none => default
  | some n => if n = 0 then default else n

/-- Embeds the normalizedConfig computation of createWordPressAuthBridge. -/
def normalizeAuthConfig (config : WordPressAuthBridgeConfig) : NormalizedAuthConfig :=
  { baseUrl := config.baseUrl
    cookieName := jsStringOr config.cookieName "wp_astro_auth"
    cookiePath := jsStringOr config.cookiePath "/"
    cookieSameSite := jsStringOr config.cookieSameSite "lax"
    secureCookies := config.secureCookies
    sessionDurationSeconds := jsNatOr config.sessionDurationSeconds (60 * 60 * 12) }

/-- Embeds createSession from src/index.ts, with the generated UUID and the
Date.now() reading passed explicitly. Returns the session and updated store. -/
def createSession (cfg : NormalizedAuthConfig) (store : SessionStore)
    (newId : String) (now : Nat) (userId : Nat) (cookies : String) :
    WordPressAuthSession × SessionStore :=
  let session : WordPressAuthSession :=
    { id := newId
      userId := userId
      cookies := cookies
      expiresAt := now + cfg.sessionDurationSeconds * 1000 }
  (session, mapSet store session.id session)

/-- One context.cookies.set call recorded by the login action handler. -/
structure CookieSetCall where
  name : String
  value : String
  path : String
  httpOnly : Bool
  sameSite : String
  secure : Bool
  maxAge : Nat
  deriving DecidableEq, Repr

/-- Successful login action payload (WordPressLoginActionResult). -/
structure WordPressLoginActionResult where
  redirectTo : String
  userId : Nat
  userName : String
  deriving DecidableEq, Repr

/-- Observable outcome of one login action invocation: the returned value or
thrown error, the session store afterwards, and the response cookies set. -/
structure LoginActionOutcome where
  result : Except LoginErr WordPressLoginActionResult
  store : SessionStore
  cookiesSet : List CookieSetCall

/-- Embeds the loginAction handler of createWordPressAuthBridge: run the form
handshake, verify the merged cookies against the current-user endpoint
(any failure there is caught and rethrown as UNAUTHORIZED), then create the
session and set the session cookie. The request URL protocol is modelled by
the urlIsHttps flag. -/
def loginActionHandler (config : WordPressAuthBridgeConfig) (env : LoginEnv)
    (store : SessionStore) (now : Nat) (newId : String)
    (redirectTo : Option String) (urlIsHttps : Bool) : LoginActionOutcome :=
  let cfg := normalizeAuthConfig config
  match loginWithWordPressForm env with
  | Except.error e => { result := Except.error e, store := store, cookiesSet := [] }
  | Except.ok cookieHeader =>
      match env.currentUser with
      | Except.error _ =>
          { result := Except.error
              (LoginErr.actionError "UNAUTHORIZED" "WordPress rejected these credentials.")
            store := store
            cookiesSet := [] }
      | Except.ok user =>
          let created := createSession cfg store newId now user.id cookieHeader
          { result := Except.ok
              { redirectTo := sanitizeRedirectPath redirectTo
                userId := user.id
                userName := user.name }
            store := created.2
            cookiesSet := [{ name := cfg.cookieName
                             value := created.1.id
                             path := cfg.cookiePath
                             httpOnly := true
                             sameSite := cfg.cookieSameSite
                             secure := cfg.secureCookies.getD urlIsHttps
                             maxAge := cfg.sessionDurationSeconds }] }

/-- Result shape of the user loader's loadEntry call. -/
structure UserLoaderResult where
  data : Option WordPressAuthor
  error : Option String
  deriving Repr

/-- Embeds resolveUserBySessionId from src/index.ts: read the session (lazy
expiry included), call the user loader with the session's cookies and user id,
and on a loader error or missing data delete the session and return null. The
loader call is modelled by the loadEntry function of the environment. -/
def resolveUserBySessionId (store : SessionStore) (sessionId : Option String)
    (now : Nat) (loadEntry : WordPressAuthSession → UserLoaderResult) :
    Option WordPressAuthor × SessionStore :=
  match getSession store sessionId now with
  | (none, store') => (none, store')
  | (some session, store') =>
      let result := loadEntry session
      if result.error.isSome ∨ result.data.isNone then
        (none, deleteSession store' (some session.id))
      else
        (result.data, store')

/-!
REST client, embedded from src/client/index.ts and src/client/posts.ts.
One upstream HTTP response is modelled by an APIResponse record carrying the
ok flag, status, parsed JSON body, and the X-WP-Total and X-WP-TotalPages
headers already parsed to numbers (parseInt of a missing header yields 0 in
fetchAPIPaginated).
-/

/-- One upstream REST response as seen by fetchAPIPaginated. -/
structure APIResponse (α : Type) where
  ok : Bool
  status : Nat
  statusText : String
  body : α
  total : Nat
  totalPages : Nat

/-- Data plus pagination headers returned by fetchAPIPaginated (FetchResult). -/
structure ClientFetchResult (α : Type) where
  data : α
  total : Nat
  totalPages : Nat
  deriving Repr

/-- Embeds fetchAPIPaginated from src/client/index.ts: a non-ok response
throws a WordPress API error naming the status, otherwise the body and the
pagination headers are returned. -/
def fetchAPIPaginated {α : Type} (response : APIResponse α) :
    Except String (ClientFetchResult α) :=
  if response.ok then
    Except.ok { data := response.body, total := response.total, totalPages := response.totalPages }
  else
    Except.error ("WordPress API error: " ++ toString response.status ++ " " ++ response.statusText)

/-- Embeds fetchAPI from src/client/index.ts: fetchAPIPaginated, data only. -/
def fetchAPI {α : Type} (response : APIResponse α) : Except String α :=
  (fetchAPIPaginated response).map (fun r => r.data)

/-- A WordPress post body; only identity fields matter for these claims. -/
structure WordPressPost where
  id : Nat
  slug : String
  deriving DecidableEq, Repr

/-- Embeds getPost from src/client/posts.ts: fetch one post by id; a non-ok
upstream response (such as a 404 for a missing id) makes fetchAPI throw. -/
def getPost (response : APIResponse WordPressPost) : Except String WordPressPost :=
  fetchAPI response

/-- Embeds getPostBySlug from src/client/posts.ts: fetch the post list
filtered by slug and return its first element, which is undefined (none) when
the list is empty. -/
def getPostBySlug (response : APIResponse (List WordPressPost)) :
    Except String (Option WordPressPost) :=
  (fetchAPI response).map (fun posts => posts.head?)

/-- Embeds the do/while body of getAllPosts from src/client/posts.ts. The
upstream is a function from the requested page number to that page's
response; each iteration awaits fetchAPIPaginated, so a non-ok response makes
the iteration throw and the error aborts the loop and propagates to the
caller (the inner Except). Fuel bounds the number of remaining iterations so
the recursion is total (none means the loop would still be running). The
accumulated items and the list of fetched page numbers are threaded
through. -/
def getAllLoop {α : Type} (env : Nat → APIResponse (List α)) :
    Nat → Nat → List α → List Nat → Option (Except String (List α × List Nat))
  | 0, _, _, _ => none
  | fuel + 1, page, acc, fetched =>
      match fetchAPIPaginated (env page) with
      | Except.error e => some (Except.error e)
      | Except.ok result =>
          if page + 1 ≤ result.totalPages then
            getAllLoop env fuel (page + 1) (acc ++ result.data) (fetched ++ [page])
          else some (Except.ok (acc ++ result.data, fetched ++ [page]))

/-- Embeds getAllPosts from src/client/posts.ts: page starts at 1, totalPages
starts at 1, and the do/while loop runs while page is at most the reported
totalPages of the latest response; a WordPress API error thrown by
fetchAPIPaginated propagates out of the loop. -/
def getAllPosts {α : Type} (env : Nat → APIResponse (List α)) (fuel : Nat) :
    Option (Except String (List α × List Nat)) :=
  getAllLoop env fuel 1 [] []

/-- The page numbers 1 through n inclusive, as the claim's range of pages. -/
def pagesOneTo (n : Nat) : List Nat :=
  List.range' 1 n

/-!
Filter translation, embedded from src/client/types.ts (filterToParams).
Filter values are JS values as used by the typed filters: strings, numbers,
booleans, arrays of atoms, null and undefined. A filter object is an
association list of property names to values in insertion order, since
Object.entries iterates string keys in insertion order.
-/

/-- An element of a filter array value, rendered by Array.prototype.join:
null and undefined elements render as the empty string. -/
inductive JSAtom where
  | str (s : String)
  | num (n : Int)
  | boolean (b : Bool)
  | nullv
  | undef
  deriving DecidableEq, Repr

/-- A filter property value. -/
inductive JSValue where
  | undefined
  | null
  | str (s : String)
  | num (n : Int)
  | boolean (b : Bool)
  | arr (elems : List JSAtom)
  deriving DecidableEq, Repr

/-- Rendering of one array element under Array.prototype.join. -/
def atomJoinString : JSAtom → String
  | JSAtom.str s => s
  | JSAtom.num n => toString n
  | JSAtom.boolean b => if b then "true" else "false"
  | JSAtom.nullv => ""
  | JSAtom.undef => ""

/-- Embeds the camelCase to snake_case key translation of filterToParams:
insert an underscore before every uppercase letter, then lowercase. -/
def toSnakeCase (key : String) : String :=
  String.mk (key.toList.foldr
    (fun c acc => if c.isUpper then '_' :: c.toLower :: acc else c.toLower :: acc) [])

/-- Embeds the per-entry rendering of filterToParams: undefined and null are
skipped, arrays join with commas, booleans render as true/false, and numbers
and strings stringify. -/
def paramValue : JSValue → Option String
  | JSValue.undefined => none
  | JSValue.null => none
  | JSValue.str s => some s
  | JSValue.num n => some (toString n)
  | JSValue.boolean b => some (if b then "true" else "false")
  | JSValue.arr elems => some (String.intercalate "," (elems.map atomJoinString))

/-- A filter object: property names to values in insertion order. -/
abbrev FilterObject : Type := List (String × JSValue)

/-- The defined (name, rendered value) pairs of a filter, with keys already
translated to snake_case, in iteration order. -/
def definedPairs (filter : FilterObject) : List (String × String) :=
  filter.filterMap (fun kv => (paramValue kv.2).map (fun s => (toSnakeCase kv.1, s)))

/-- The params object built by the entries loop of filterToParams: each entry
with a defined value assigns its rendered value to its translated key. -/
def loopParams (filter : FilterObject) : List (String × String) :=
  filter.foldl
    (fun params kv =>
      match paramValue kv.2 with
      | none => params
      | some s => mapSet params (toSnakeCase kv.1) s) []

theorem loopParams_eq_foldl_definedPairs (filter : FilterObject) :
    loopParams filter = (definedPairs filter).foldl setPair [] := by
  suffices h : ∀ (f : FilterObject) (m : List (String × String)),
      f.foldl
        (fun params kv =>
          match paramValue kv.2 with
          | none => params
          | some s => mapSet params (toSnakeCase kv.1) s) m =
        (definedPairs f).foldl setPair m from h filter []
  intro f
  induction f with
  | nil => intro m; rfl
  | cons kv rest ih =>
      intro m
      rw [List.foldl_cons]
      cases hv : paramValue kv.2 with
      | none => simp [definedPairs, hv, ih]
      | some s => simp [definedPairs, hv, ih, setPair]

/-- Embeds filterToParams from src/client/types.ts: translate defined entries
into query parameters, then default per_page to 100 when absent. -/
def filterToParams (filter : FilterObject) : List (String × String) :=
  let params := loopParams filter
  if (mapGet params "per_page").isNone then mapSet params "per_page" "100"
  else params

/-!
Claim C3: redirect-path sanitization.
-/

/-- C3: sanitizeRedirectPath forces "//evil.com", "/login", "/logout?x=1",
the empty string and null to "/", passes "/dashboard" through unchanged, and
in general returns the candidate unchanged exactly when it starts with "/"
but not "//" and is not the login or logout route, returning "/" otherwise. -/
theorem sanitizeRedirectPath_spec :
    sanitizeRedirectPath (some "//evil.com") = "/" ∧
    sanitizeRedirectPath (some "/login") = "/" ∧
    sanitizeRedirectPath (some "/logout?x=1") = "/" ∧
    sanitizeRedirectPath (some "") = "/" ∧
    sanitizeRedirectPath none = "/" ∧
    sanitizeRedirectPath (some "/dashboard") = "/dashboard" ∧
    ∀ c : String,
      sanitizeRedirectPath (some c) =
        if strStartsWith c "/" = true ∧ strStartsWith c "//" = false ∧
            c ≠ "/login" ∧ strStartsWith c "/login?" = false ∧
            c ≠ "/logout" ∧ strStartsWith c "/logout?" = false
        then c else "/" := by
  refine ⟨by decide, by decide, by decide, by decide, rfl, by decide, ?_⟩
  intro c
  by_cases h1 : strStartsWith c "/" = true
  · have hne : ¬ c = "" := by
      rintro rfl
      exact absurd h1 (by decide)
    by_cases h2 : strStartsWith c "//" = true
    · simp [sanitizeRedirectPath, hne, h1, h2]
    · by_cases h3 : c = "/login"
      · subst h3; decide
      · by_cases h4 : strStartsWith c "/login?" = true
        · simp [sanitizeRedirectPath, hne, h1, h2, h3, h4]
        · by_cases h5 : c = "/logout"
          · subst h5; decide
          · by_cases h6 : strStartsWith c "/logout?" = true
            · simp [sanitizeRedirectPath, hne, h1, h2, h3, h4, h5, h6]
            · simp [sanitizeRedirectPath, hne, h1, h2, h3, h4, h5, h6]
  · simp [sanitizeRedirectPath, h1]

/-!
Claim C2: lazy session expiry on read.
-/

/-- C2: when the stored session for an id has expired (expiresAt at most the
current time), getSession returns null and deletes the entry, a second read
also returns null, the store no longer holds the id, and getSession never
returns an expired session. -/
theorem getSession_lazyExpiry_spec (store : SessionStore) (sid : String)
    (session : WordPressAuthSession) (now : Nat)
    (hsid : sid ≠ "")
    (hfind : mapGet store sid = some session)
    (hexp : session.expiresAt ≤ now) :
    getSession store (some sid) now = (none, mapDelete store sid) ∧
    (getSession (mapDelete store sid) (some sid) now).1 = none ∧
    mapGet (mapDelete store sid) sid = none ∧
    (∀ (st : SessionStore) (i : Option String) (n : Nat) (s : WordPressAuthSession),
      (getSession st i n).1 = some s → n < s.expiresAt) := by
  have hdel : mapGet (mapDelete store sid) sid = none := mapGet_mapDelete_self store sid
  refine ⟨?_, ?_, hdel, ?_⟩
  · simp [getSession, hsid, hfind, isSessionExpired, hexp]
  · simp [getSession, hsid, hdel]
  · intro st i n s h
    match i with
    | none => simp [getSession] at h
    | some sid' =>
        by_cases h0 : sid' = ""
        · simp [getSession, h0] at h
        · cases hget : mapGet st sid' with
          | none => simp [getSession, h0, hget] at h
          | some s' =>
              by_cases hexp' : isSessionExpired s' n = true
              · simp [getSession, h0, hget, hexp'] at h
              · have hlt : n < s'.expiresAt := by
                  have := hexp'
                  simp [isSessionExpired] at this
                  omega
                simp [getSession, h0, hget, hexp'] at h
                rw [← h]
                exact hlt

/-- Concrete instance of C2: a session that expired at time 50 read at time
100 is dropped and both reads return null. -/
theorem getSession_lazyExpiry_witness :
    getSession [("abc", { id := "abc", userId := 7, cookies := "a=1", expiresAt := 50 })]
        (some "abc") 100 =
      (none, mapDelete [("abc", { id := "abc", userId := 7, cookies := "a=1", expiresAt := 50 })] "abc") ∧
    (getSession
        (mapDelete [("abc", { id := "abc", userId := 7, cookies := "a=1", expiresAt := 50 })] "abc")
        (some "abc") 100).1 = none :=
  ⟨(getSession_lazyExpiry_spec
      [("abc", { id := "abc", userId := 7, cookies := "a=1", expiresAt := 50 })] "abc"
      { id := "abc", userId := 7, cookies := "a=1", expiresAt := 50 } 100
      (by decide) (by decide) (by decide)).1,
   (getSession_lazyExpiry_spec
      [("abc", { id := "abc", userId := 7, cookies := "a=1", expiresAt := 50 })] "abc"
      { id := "abc", userId := 7, cookies := "a=1", expiresAt := 50 } 100
      (by decide) (by decide) (by decide)).2.1⟩

/-!
Claim C9: resolveUserBySessionId deletes a live session when the upstream
user lookup fails.
-/

/-- C9: for a live, unexpired session whose user-loader call returns an error
or no data, resolveUserBySessionId returns null and deletes the session from
the store, a deletion path beyond logout and first-read-after-expiry. -/
theorem resolveUserBySessionId_deletesOnFailure_spec (store : SessionStore)
    (sid : String) (session : WordPressAuthSession) (now : Nat)
    (loadEntry : WordPressAuthSession → UserLoaderResult)
    (hsid : sid ≠ "")
    (hid : session.id = sid)
    (hfind : mapGet store sid = some session)
    (hlive : now < session.expiresAt)
    (hfail : (loadEntry session).error.isSome ∨ (loadEntry session).data.isNone) :
    resolveUserBySessionId store (some sid) now loadEntry = (none, mapDelete store sid) ∧
    mapGet (mapDelete store sid) sid = none := by
  have hnotexp : ¬ isSessionExpired session now = true := by
    simp [isSessionExpired]
    omega
  have hget : getSession store (some sid) now = (some session, store) := by
    simp [getSession, hsid, hfind, hnotexp]
  refine ⟨?_, mapGet_mapDelete_self store sid⟩
  rw [resolveUserBySessionId, hget]
  simp only [hfail, if_pos]
  rw [hid, deleteSession]
  simp [hsid]

/-- Concrete instance of C9: a live session at time 10 whose user lookup
reports an error is removed by resolveUserBySessionId. -/
theorem resolveUserBySessionId_deletesOnFailure_witness :
    resolveUserBySessionId
        [("tok", { id := "tok", userId := 3, cookies := "c=1", expiresAt := 99 })]
        (some "tok") 10 (fun _ => { data := none, error := some "HTTP 500" }) =
      (none,
        mapDelete [("tok", { id := "tok", userId := 3, cookies := "c=1", expiresAt := 99 })] "tok") :=
  (resolveUserBySessionId_deletesOnFailure_spec
      [("tok", { id := "tok", userId := 3, cookies := "c=1", expiresAt := 99 })] "tok"
      { id := "tok", userId := 3, cookies := "c=1", expiresAt := 99 } 10
      (fun _ => { data := none, error := some "HTTP 500" })
      (by decide) rfl (by decide) (by decide) (Or.inl rfl)).1

/-!
Claim C5: cookie-header merging.
-/

theorem mapGet_mergeMap (headers : List (Option String)) (name : String) :
    mapGet (mergeMap headers) name = lastValue name (parsedPairs headers) := by
  rw [mergeMap_eq_foldl_parsedPairs, mapGet_foldl_setPair]
  cases lastValue name (parsedPairs headers) <;> rfl

theorem mergeMap_append (before after : List (Option String)) :
    mergeMap (before ++ after) =
      after.foldl (fun m h => (headerPairs h).foldl setPair m) (mergeMap before) := by
  rw [mergeMap, List.foldl_append]
  rfl

/-- C5: the merged cookie map keys each name at most once, the value looked
up for a name is the one of the last parsed occurrence of that name across
the headers in order, undefined and empty header arguments are skipped, the
rendered header is the join of the map entries, and malformed parts without a
proper name=value separator are dropped. -/
theorem mergeCookieHeaders_spec :
    (∀ headers : List (Option String), (mapKeys (mergeMap headers)).Nodup) ∧
    (∀ (headers : List (Option String)) (name : String),
      mapGet (mergeMap headers) name = lastValue name (parsedPairs headers)) ∧
    (∀ before after : List (Option String),
      mergeMap (before ++ none :: after) = mergeMap (before ++ after)) ∧
    (∀ before after : List (Option String),
      mergeMap (before ++ some "" :: after) = mergeMap (before ++ after)) ∧
    (∀ headers : List (Option String),
      mergeCookieHeaders headers =
        String.intercalate "; " ((mergeMap headers).map (fun p => p.1 ++ "=" ++ p.2))) ∧
    mergeCookieHeaders [some "a=1; malformed; =x; b=2"] = "a=1; b=2" ∧
    mergeCookieHeaders [some "a=1", some "b=2; a=3"] = "a=3; b=2" := by
  refine ⟨?_, mapGet_mergeMap, ?_, ?_, fun _ => rfl, by decide, by decide⟩
  · intro headers
    rw [mergeMap_eq_foldl_parsedPairs]
    exact nodup_mapKeys_foldl_setPair _ [] (by simp [mapKeys])
  · intro before after
    rw [mergeMap_append, mergeMap_append]
    rfl
  · intro before after
    rw [mergeMap_append, mergeMap_append]
    rfl

/-!
Claim C7: singular lookups on missing targets.
-/

/-- C7 counterexample: a get-by-id lookup whose target does not exist
upstream (a non-ok 404 response) throws a WordPress API error instead of
returning an absent-value result. -/
theorem getPost_notFound_counterexample :
    getPost { ok := false, status := 404, statusText := "Not Found",
              body := { id := 0, slug := "none" }, total := 0, totalPages := 0 } =
      Except.error "WordPress API error: 404 Not Found" := by
  rfl

/-- C7 (amended): a by-slug singular lookup returns the first element of the
result list, hence the explicit absent value (none) when the list is empty,
while a by-id singular lookup throws a status-derived WordPress API error
whenever the upstream response is not ok. -/
theorem singularLookup_spec (response : APIResponse (List WordPressPost))
    (hok : response.ok = true) :
    getPostBySlug response = Except.ok response.body.head? ∧
    (response.body = [] → getPostBySlug response = Except.ok none) ∧
    (∀ r : APIResponse WordPressPost, r.ok = false →
      getPost r =
        Except.error ("WordPress API error: " ++ toString r.status ++ " " ++ r.statusText)) := by
  refine ⟨?_, ?_, ?_⟩
  · simp [getPostBySlug, fetchAPI, fetchAPIPaginated, hok, Except.map]
  · intro hempty
    simp [getPostBySlug, fetchAPI, fetchAPIPaginated, hok, hempty, Except.map]
  · intro r hr
    simp [getPost, fetchAPI, fetchAPIPaginated, hr, Except.map]

/-- Concrete instance of C7 (amended): an ok response with an empty result
list makes getPostBySlug return the absent value without throwing. -/
theorem singularLookup_witness :
    getPostBySlug { ok := true, status := 200, statusText := "OK",
                    body := [], total := 0, totalPages := 0 } = Except.ok none :=
  (singularLookup_spec
      { ok := true, status := 200, statusText := "OK",
        body := [], total := 0, totalPages := 0 } rfl).2.1 rfl

/-!
Claim C4: auto-pagination.
-/

/-- Concatenation of the item lists of the given pages, in page order. -/
def pagesData {α : Type} (env : Nat → APIResponse (List α)) : List Nat → List α
  | [] => []
  | p :: rest => (env p).body ++ pagesData env rest

theorem pagesData_append {α : Type} (env : Nat → APIResponse (List α))
    (l1 l2 : List Nat) : pagesData env (l1 ++ l2) = pagesData env l1 ++ pagesData env l2 := by
  induction l1 with
  | nil => rfl
  | cons p rest ih => simp [pagesData, ih]

theorem getAllLoop_constPages {α : Type} (env : Nat → APIResponse (List α)) (T : Nat)
    (hok : ∀ p, (env p).ok = true)
    (hT : ∀ p, (env p).totalPages = T) :
    ∀ (fuel page : Nat) (acc : List α) (fetched : List Nat),
      1 ≤ page → page ≤ T → T - page < fuel →
      getAllLoop env fuel page acc fetched =
        some (Except.ok (acc ++ pagesData env (List.range' page (T + 1 - page)),
              fetched ++ List.range' page (T + 1 - page))) := by
  intro fuel
  induction fuel with
  | zero => intro page acc fetched _ _ hf; omega
  | succ fuel ih =>
      intro page acc fetched h1 h2 hf
      have hfetch : fetchAPIPaginated (env page) =
          Except.ok { data := (env page).body, total := (env page).total,
                      totalPages := (env page).totalPages } := by
        rw [fetchAPIPaginated, if_pos (hok page)]
      rw [getAllLoop]
      simp only [hfetch, hT]
      by_cases hlt : page + 1 ≤ T
      · rw [if_pos hlt,
          ih (page + 1) (acc ++ (env page).body) (fetched ++ [page]) (by omega) hlt (by omega)]
        have hrange : List.range' page (T + 1 - page) = page :: List.range' (page + 1) (T - page) := by
          have : T + 1 - page = (T - page) + 1 := by omega
          rw [this, List.range'_succ]
        have hrange2 : T + 1 - (page + 1) = T - page := by omega
        rw [hrange, hrange2]
        simp [pagesData]
      · rw [if_neg hlt]
        have h3 : T + 1 - page = 1 := by omega
        rw [h3]
        simp [pagesData, List.range']

/-- C4 counterexample: with an upstream consistently reporting totalPages = 0
and total = 0 (an empty collection), the do/while loop still fetches page 1,
so the fetched pages are [1] and not the pages 1 through totalPages (none);
and with an upstream of one ok page of one item that reports a fixed total of
5, the loop returns one item, so the returned item count differs from the
upstream-reported total. -/
theorem getAllPosts_counterexample :
    getAllPosts (fun _ => { ok := true, status := 200, statusText := "OK",
                            body := ([] : List Nat), total := 0, totalPages := 0 }) 5 =
      some (Except.ok ([], [1])) ∧
    pagesOneTo 0 = [] ∧
    ([1] : List Nat) ≠ [] ∧
    getAllPosts (fun _ => { ok := true, status := 200, statusText := "OK",
                            body := [99], total := 5, totalPages := 1 }) 5 =
      some (Except.ok ([99], [1])) ∧
    ([99] : List Nat).length ≠ 5 := by
  refine ⟨rfl, rfl, by decide, rfl, by decide⟩

/-- C4 (amended): when every upstream response is ok (a non-ok response makes
fetchAPIPaginated throw and the error propagates out of the loop), every
response reports the same totalPages, at least 1, and enough fuel is
provided, the auto-pagination loop fetches exactly pages 1 through totalPages
in increasing order and returns the concatenation of the per-page item lists
in upstream order; when those lists together hold the upstream-reported total
number of items, the returned item count equals that total. With
totalPages = 0 the do/while loop still fetches page 1 once. -/
theorem getAllPosts_paginates_spec {α : Type} (env : Nat → APIResponse (List α))
    (T total fuel : Nat)
    (hok : ∀ p, (env p).ok = true)
    (hT : ∀ p, (env p).totalPages = T)
    (h1 : 1 ≤ T) (hfuel : T ≤ fuel)
    (hsum : (pagesData env (pagesOneTo T)).length = total) :
    getAllPosts env fuel = some (Except.ok (pagesData env (pagesOneTo T), pagesOneTo T)) ∧
    (∀ (items : List α) (fetched : List Nat),
      getAllPosts env fuel = some (Except.ok (items, fetched)) → items.length = total) ∧
    (∀ (env' : Nat → APIResponse (List α)) (f : Nat), (env' 1).ok = false → 1 ≤ f →
      getAllPosts env' f =
        some (Except.error
          ("WordPress API error: " ++ toString (env' 1).status ++ " " ++ (env' 1).statusText))) := by
  have hmain : getAllPosts env fuel =
      some (Except.ok (pagesData env (pagesOneTo T), pagesOneTo T)) := by
    rw [getAllPosts, getAllLoop_constPages env T hok hT fuel 1 [] [] (by omega) h1 (by omega)]
    simp [pagesOneTo]
  refine ⟨hmain, ?_, ?_⟩
  · intro items fetched h
    rw [hmain] at h
    cases h
    exact hsum
  · intro env' f hok' hf
    match f, hf with
    | f' + 1, _ =>
        have hfetch : fetchAPIPaginated (env' 1) =
            Except.error
              ("WordPress API error: " ++ toString (env' 1).status ++ " " ++ (env' 1).statusText) := by
          rw [fetchAPIPaginated, if_neg (by simp [hok'])]
        rw [getAllPosts, getAllLoop]
        simp only [hfetch]

/-- Concrete instance of C4 (amended): a three-page upstream of two items per
page and total 6 yields the six items of pages 1, 2 and 3 in order. -/
theorem getAllPosts_paginates_witness :
    getAllPosts (fun p => { ok := true, status := 200, statusText := "OK",
                            body := [10 * p, 10 * p + 1], total := 6, totalPages := 3 }) 3 =
      some (Except.ok ([10, 11, 20, 21, 30, 31], [1, 2, 3])) := by
  have h := (getAllPosts_paginates_spec
      (fun p => { ok := true, status := 200, statusText := "OK",
                  body := [10 * p, 10 * p + 1], total := 6, totalPages := 3 })
      3 6 3 (fun _ => rfl) (fun _ => rfl) (by decide) (by decide) (by decide)).1
  rw [h]
  rfl

/-!
Claims C1 and C8: login action failure and success semantics.
-/

/-- The ActionError code carried by a login error, none for a raw network
failure. -/
def loginErrCode : LoginErr → Option String
  | LoginErr.actionError code _ => some code
  | LoginErr.network _ => none

/-- The merged cookie header of steps 1 through 3 of the handshake when both
fetches returned responses. -/
def handshakeMerged (r1 r2 : WPHttpResponse) : String :=
  mergeCookieHeaders
    [some (mergeCookieHeaders [some testCookieHeaderValue, some (toCookieHeader r1.setCookies)]),
      some (toCookieHeader r2.setCookies)]

theorem loginWithWordPressForm_eq_of_ok_ok (env : LoginEnv) (r1 r2 : WPHttpResponse)
    (hi : env.initialResponse = FetchOutcome.ok r1)
    (hl : env.loginResponse = FetchOutcome.ok r2) :
    loginWithWordPressForm env =
      if handshakeMerged r1 r2 = "" ∨ ¬ hasWordPressLoginCookie (handshakeMerged r1 r2) = true then
        Except.error (LoginErr.actionError "UNAUTHORIZED" "WordPress rejected these credentials.")
      else Except.ok (handshakeMerged r1 r2) := by
  rw [loginWithWordPressForm, hi, hl]
  rfl

theorem loginForm_error_classify (env : LoginEnv) (e : LoginErr)
    (h : loginWithWordPressForm env = Except.error e) :
    loginErrCode e = some "UNAUTHORIZED" ∨ ∃ m, e = LoginErr.network m := by
  cases hi : env.initialResponse with
  | netError m =>
      rw [loginWithWordPressForm, hi] at h
      have h' : LoginErr.network m = e := by injection h
      exact Or.inr ⟨m, h'.symm⟩
  | ok r1 =>
      cases hl : env.loginResponse with
      | netError m =>
          rw [loginWithWordPressForm, hi, hl] at h
          have h' : LoginErr.network m = e := by injection h
          exact Or.inr ⟨m, h'.symm⟩
      | ok r2 =>
          rw [loginWithWordPressForm_eq_of_ok_ok env r1 r2 hi hl] at h
          by_cases hc : handshakeMerged r1 r2 = "" ∨
              ¬ hasWordPressLoginCookie (handshakeMerged r1 r2) = true
          · rw [if_pos hc] at h
            have h' :
                LoginErr.actionError "UNAUTHORIZED" "WordPress rejected these credentials." = e := by
              injection h
            rw [← h']
            exact Or.inl rfl
          · rw [if_neg hc] at h
            exact absurd h (by simp)

/-- C1 (amended): whenever the login action fails, no session entry is added
and no response cookie is set; the error is either the UNAUTHORIZED
ActionError (empty or marker-less merged cookie header, or a failed
current-user verification) or a raw network failure propagated unwrapped from
one of the handshake fetches; when the handshake itself succeeded, a failure
is exactly the UNAUTHORIZED error; and a session and cookie are produced only
after the current-user verification succeeds. -/
theorem loginAction_failure_spec (config : WordPressAuthBridgeConfig) (env : LoginEnv)
    (store : SessionStore) (now : Nat) (newId : String) (redirectTo : Option String)
    (urlIsHttps : Bool) (e : LoginErr)
    (herr : (loginActionHandler config env store now newId redirectTo urlIsHttps).result =
      Except.error e) :
    (loginActionHandler config env store now newId redirectTo urlIsHttps).store = store ∧
    (loginActionHandler config env store now newId redirectTo urlIsHttps).cookiesSet = [] ∧
    (loginErrCode e = some "UNAUTHORIZED" ∨ ∃ m, e = LoginErr.network m) ∧
    ((∃ h, loginWithWordPressForm env = Except.ok h) →
      e = LoginErr.actionError "UNAUTHORIZED" "WordPress rejected these credentials.") ∧
    (∀ env' : LoginEnv,
      (loginActionHandler config env' store now newId redirectTo urlIsHttps).cookiesSet ≠ [] →
      (∃ u, env'.currentUser = Except.ok u) ∧
        ∃ h, loginWithWordPressForm env' = Except.ok h) := by
  have honly : ∀ env' : LoginEnv,
      (loginActionHandler config env' store now newId redirectTo urlIsHttps).cookiesSet ≠ [] →
      (∃ u, env'.currentUser = Except.ok u) ∧
        ∃ h, loginWithWordPressForm env' = Except.ok h := by
    intro env' hne
    rw [loginActionHandler] at hne
    cases hform' : loginWithWordPressForm env' with
    | error e' => rw [hform'] at hne; exact absurd rfl hne
    | ok h' =>
        rw [hform'] at hne
        cases hcu' : env'.currentUser with
        | error e'' => rw [hcu'] at hne; exact absurd rfl hne
        | ok u => exact ⟨⟨u, rfl⟩, ⟨h', rfl⟩⟩
  cases hform : loginWithWordPressForm env with
  | error ef =>
      have hres : (loginActionHandler config env store now newId redirectTo urlIsHttps).result =
          Except.error ef := by
        rw [loginActionHandler, hform]
      have he : e = ef := by
        rw [hres] at herr
        injection herr with h'
        exact h'.symm
      subst he
      refine ⟨by rw [loginActionHandler, hform], by rw [loginActionHandler, hform],
        loginForm_error_classify env e hform, ?_, honly⟩
      rintro ⟨h, hok⟩
      simp [hform] at hok
  | ok hdr =>
      cases hcu : env.currentUser with
      | error e' =>
          have he : e = LoginErr.actionError "UNAUTHORIZED" "WordPress rejected these credentials." := by
            rw [loginActionHandler, hform, hcu] at herr
            injection herr with h'
            exact h'.symm
          refine ⟨by rw [loginActionHandler, hform, hcu], by rw [loginActionHandler, hform, hcu],
            Or.inl (by rw [he, loginErrCode]), fun _ => he, honly⟩
      | ok u =>
          rw [loginActionHandler, hform, hcu] at herr
          exact absurd herr (by simp)

/-- C1 counterexample: a network failure during the first handshake fetch
propagates as the raw network error, which carries no UNAUTHORIZED code, so
not every login failure surfaces as an error with code UNAUTHORIZED. -/
theorem loginAction_networkError_counterexample :
    (loginActionHandler { baseUrl := "https://wp.example" }
        { initialResponse := FetchOutcome.netError "fetch failed",
          loginResponse := FetchOutcome.netError "fetch failed",
          currentUser := Except.error "unreached" }
        [] 0 "uuid-1" none false).result =
      Except.error (LoginErr.network "fetch failed") ∧
    loginErrCode (LoginErr.network "fetch failed") ≠ some "UNAUTHORIZED" :=
  ⟨rfl, by decide⟩

/-- Concrete instance of C1 (amended): rejected credentials (no logged-in
cookie in the merged header) leave the store untouched, set no cookie, and
carry the UNAUTHORIZED code. -/
theorem loginAction_failure_witness :
    (loginActionHandler { baseUrl := "https://wp.example" }
        { initialResponse := FetchOutcome.ok { setCookies := [] },
          loginResponse := FetchOutcome.ok { setCookies := [] },
          currentUser := Except.error "bad credentials" }
        [] 0 "uuid-1" none false).store = ([] : SessionStore) ∧
    (loginActionHandler { baseUrl := "https://wp.example" }
        { initialResponse := FetchOutcome.ok { setCookies := [] },
          loginResponse := FetchOutcome.ok { setCookies := [] },
          currentUser := Except.error "bad credentials" }
        [] 0 "uuid-1" none false).cookiesSet = [] ∧
    (loginErrCode (LoginErr.actionError "UNAUTHORIZED" "WordPress rejected these credentials.") =
        some "UNAUTHORIZED" ∨
      ∃ m, LoginErr.actionError "UNAUTHORIZED" "WordPress rejected these credentials." =
        LoginErr.network m) := by
  have t := loginAction_failure_spec { baseUrl := "https://wp.example" }
      { initialResponse := FetchOutcome.ok { setCookies := [] },
        loginResponse := FetchOutcome.ok { setCookies := [] },
        currentUser := Except.error "bad credentials" }
      [] 0 "uuid-1" none false
      (LoginErr.actionError "UNAUTHORIZED" "WordPress rejected these credentials.") rfl
  exact ⟨t.1, t.2.1, t.2.2.1⟩

/-- C8: on every successful login exactly one cookie is set, HTTP-only,
holding only the opaque session id, with the configured (or default) name,
path and SameSite, secure defaulting to the request protocol being https
unless overridden by secureCookies, and maxAge equal to the configured
session TTL, the same duration that fixes the stored session's expiresAt. -/
theorem loginAction_success_cookie_spec (config : WordPressAuthBridgeConfig)
    (env : LoginEnv) (store : SessionStore) (now : Nat) (newId : String)
    (redirectTo : Option String) (urlIsHttps : Bool)
    (user : WordPressAuthor) (hdr : String)
    (hform : loginWithWordPressForm env = Except.ok hdr)
    (hcu : env.currentUser = Except.ok user) :
    (loginActionHandler config env store now newId redirectTo urlIsHttps).cookiesSet =
      [{ name := (normalizeAuthConfig config).cookieName
         value := newId
         path := (normalizeAuthConfig config).cookiePath
         httpOnly := true
         sameSite := (normalizeAuthConfig config).cookieSameSite
         secure := config.secureCookies.getD urlIsHttps
         maxAge := (normalizeAuthConfig config).sessionDurationSeconds }] ∧
    mapGet (loginActionHandler config env store now newId redirectTo urlIsHttps).store newId =
      some { id := newId, userId := user.id, cookies := hdr,
             expiresAt := now + (normalizeAuthConfig config).sessionDurationSeconds * 1000 } ∧
    (config.secureCookies = none → config.secureCookies.getD urlIsHttps = urlIsHttps) ∧
    (∀ b, config.secureCookies = some b → config.secureCookies.getD urlIsHttps = b) := by
  refine ⟨?_, ?_, ?_, ?_⟩
  · rw [loginActionHandler, hform, hcu]
    rfl
  · rw [loginActionHandler, hform, hcu]
    simp [createSession, mapGet_mapSet]
  · intro h; rw [h]; rfl
  · intro b h; rw [h]; rfl

/-- Concrete instance of C8: a default configuration on an https request sets
one HTTP-only lax cookie named wp_astro_auth with the session id and a 12
hour maxAge, matching the stored session's expiry duration. -/
theorem loginAction_success_cookie_witness :
    (loginActionHandler { baseUrl := "https://wp.example" }
        { initialResponse := FetchOutcome.ok { setCookies := ["wordpress_logged_in_x=1; Path=/"] },
          loginResponse := FetchOutcome.ok { setCookies := [] },
          currentUser := Except.ok { id := 3, name := "Ada" } }
        [] 1000 "uuid-1" none true).cookiesSet =
      [{ name := "wp_astro_auth", value := "uuid-1", path := "/", httpOnly := true,
         sameSite := "lax", secure := true, maxAge := 43200 }] ∧
    mapGet (loginActionHandler { baseUrl := "https://wp.example" }
        { initialResponse := FetchOutcome.ok { setCookies := ["wordpress_logged_in_x=1; Path=/"] },
          loginResponse := FetchOutcome.ok { setCookies := [] },
          currentUser := Except.ok { id := 3, name := "Ada" } }
        [] 1000 "uuid-1" none true).store "uuid-1" =
      some { id := "uuid-1", userId := 3,
             cookies := "wordpress_test_cookie=WP Cookie check; wordpress_logged_in_x=1",
             expiresAt := 1000 + 43200 * 1000 } := by
  have t := loginAction_success_cookie_spec { baseUrl := "https://wp.example" }
      { initialResponse := FetchOutcome.ok { setCookies := ["wordpress_logged_in_x=1; Path=/"] },
        loginResponse := FetchOutcome.ok { setCookies := [] },
        currentUser := Except.ok { id := 3, name := "Ada" } }
      [] 1000 "uuid-1" none true { id := 3, name := "Ada" }
      "wordpress_test_cookie=WP Cookie check; wordpress_logged_in_x=1" rfl rfl
  exact ⟨t.1, t.2.1⟩

/-!
Claims C6 and C10: filter-to-parameter translation. The helper lemmas relate
association-list lookup, last-occurrence values, key distinctness and list
permutation.
-/

theorem lastValue_eq_none_of_not_mem {α : Type} (L : List (String × α)) (k : String)
    (h : k ∉ mapKeys L) : lastValue k L = none := by
  induction L with
  | nil => rfl
  | cons p rest ih =>
      obtain ⟨k₁, v₁⟩ := p
      have h1 : k₁ ≠ k := by
        intro hh
        exact h (by simp [mapKeys, hh])
      have h2 : k ∉ mapKeys rest := by
        intro hh
        exact h (by simp [mapKeys] at hh ⊢; right; exact hh)
      rw [lastValue, ih h2]
      simp [h1]

theorem lastValue_eq_mapGet_of_nodup {α : Type} (L : List (String × α)) (k : String)
    (h : (mapKeys L).Nodup) : lastValue k L = mapGet L k := by
  induction L with
  | nil => rfl
  | cons p rest ih =>
      obtain ⟨k₁, v₁⟩ := p
      rw [mapKeys_cons, List.nodup_cons] at h
      obtain ⟨hnm, hnd⟩ := h
      by_cases h1 : k₁ = k
      · subst h1
        rw [lastValue, lastValue_eq_none_of_not_mem rest k₁ hnm]
        simp [mapGet]
      · rw [lastValue, ih hnd]
        cases hg : mapGet rest k with
        | none => simp [mapGet, h1, hg]
        | some v => simp [mapGet, h1, hg]

theorem mapGet_mem {α : Type} (L : List (String × α)) (k : String) (v : α)
    (h : mapGet L k = some v) : (k, v) ∈ L := by
  induction L with
  | nil => simp [mapGet] at h
  | cons p rest ih =>
      obtain ⟨k₁, v₁⟩ := p
      by_cases h1 : k₁ = k
      · subst h1
        rw [mapGet, if_pos rfl] at h
        injection h with h'
        subst h'
        exact List.mem_cons_self _ _
      · rw [mapGet, if_neg h1] at h
        exact List.mem_cons_of_mem _ (ih h)

theorem mapGet_of_mem_nodup {α : Type} (L : List (String × α)) (k : String) (v : α)
    (hnd : (mapKeys L).Nodup) (h : (k, v) ∈ L) : mapGet L k = some v := by
  induction L with
  | nil => simp at h
  | cons p rest ih =>
      obtain ⟨k₁, v₁⟩ := p
      rw [mapKeys_cons, List.nodup_cons] at hnd
      obtain ⟨hnm, hnd'⟩ := hnd
      rcases List.mem_cons.mp h with h0 | h0
      · injection h0 with h0a h0b
        subst h0a; subst h0b
        simp [mapGet]
      · have hk : k ∈ mapKeys rest := by
          rw [mapKeys_eq_map]
          exact List.mem_map.mpr ⟨(k, v), h0, rfl⟩
        have h1 : k₁ ≠ k := by
          intro hh
          subst hh
          exact hnm hk
        rw [mapGet, if_neg h1]
        exact ih hnd' h0

theorem mapGet_eq_none_iff {α : Type} (L : List (String × α)) (k : String) :
    mapGet L k = none ↔ k ∉ mapKeys L := by
  induction L with
  | nil => simp [mapGet, mapKeys]
  | cons p rest ih =>
      obtain ⟨k₁, v₁⟩ := p
      by_cases h1 : k₁ = k
      · subst h1
        simp [mapGet, mapKeys]
      · rw [mapGet, if_neg h1]
        simp [mapKeys, ih, h1]
        intro h
        exact fun hh => h1 hh.symm

theorem mapGet_perm_of_nodup {α : Type} (L1 L2 : List (String × α))
    (hperm : L1.Perm L2) (hnd : (mapKeys L1).Nodup) (k : String) :
    mapGet L1 k = mapGet L2 k := by
  have hkeys : (mapKeys L1).Perm (mapKeys L2) := by
    rw [mapKeys_eq_map, mapKeys_eq_map]
    exact hperm.map _
  have hnd2 : (mapKeys L2).Nodup := (hkeys.nodup_iff).mp hnd
  cases hg : mapGet L1 k with
  | none =>
      have hnm : k ∉ mapKeys L1 := (mapGet_eq_none_iff L1 k).mp hg
      have hnm2 : k ∉ mapKeys L2 := fun hh => hnm (hkeys.mem_iff.mpr hh)
      exact ((mapGet_eq_none_iff L2 k).mpr hnm2).symm
  | some v =>
      have hm : (k, v) ∈ L2 := hperm.mem_iff.mp (mapGet_mem L1 k v hg)
      exact (mapGet_of_mem_nodup L2 k v hnd2 hm).symm

theorem mapKeys_definedPairs_sublist (f : FilterObject) :
    List.Sublist (mapKeys (definedPairs f)) (f.map (fun kv => toSnakeCase kv.1)) := by
  induction f with
  | nil => simp [definedPairs, mapKeys]
  | cons kv rest ih =>
      cases hv : paramValue kv.2 with
      | none =>
          rw [definedPairs, List.filterMap_cons]
          simp only [hv, Option.map_none']
          exact List.Sublist.cons _ ih
      | some s =>
          rw [definedPairs, List.filterMap_cons]
          simp only [hv, Option.map_some']
          exact List.Sublist.cons₂ _ ih

theorem mapGet_loopParams (f : FilterObject) (k : String) :
    mapGet (loopParams f) k = lastValue k (definedPairs f) := by
  rw [loopParams_eq_foldl_definedPairs, mapGet_foldl_setPair]
  cases lastValue k (definedPairs f) <;> rfl

theorem mapGet_filterToParams_of_some (f : FilterObject) (k : String) (s : String)
    (h : mapGet (loopParams f) k = some s) :
    mapGet (filterToParams f) k = some s := by
  rw [filterToParams]
  by_cases hdef : (mapGet (loopParams f) "per_page").isNone = true
  · rw [if_pos hdef, mapGet_mapSet]
    by_cases hk : "per_page" = k
    · exfalso
      rw [hk] at hdef
      rw [h] at hdef
      simp at hdef
    · rw [if_neg hk]
      exact h
  · rw [if_neg hdef]
    exact h

/-- C10: filterToParams output always defines per_page: the translated value
when the filter supplies one (a perPage of 0 renders as "0" and passes
through), and the default "100" when the translated parameters lack
per_page. -/
theorem filterToParams_perPage_spec (f : FilterObject) :
    mapGet (filterToParams f) "per_page" =
      (match mapGet (loopParams f) "per_page" with
       | none => some "100"
       | some v => some v) ∧
    (mapGet (filterToParams f) "per_page").isSome = true ∧
    mapGet (filterToParams [("perPage", JSValue.num 0)]) "per_page" = some "0" ∧
    toSnakeCase "perPage" = "per_page" := by
  have h1 : mapGet (filterToParams f) "per_page" =
      (match mapGet (loopParams f) "per_page" with
       | none => some "100"
       | some v => some v) := by
    rw [filterToParams]
    cases hg : mapGet (loopParams f) "per_page" with
    | none => simp [hg, mapGet_mapSet]
    | some v => simp [hg]
  refine ⟨h1, ?_, by decide, by decide⟩
  rw [h1]
  cases mapGet (loopParams f) "per_page" <;> rfl

/-- Concrete instance of C10: an empty filter still carries the per_page
default of 100. -/
theorem filterToParams_perPage_witness :
    mapGet (filterToParams ([] : FilterObject)) "per_page" = some "100" :=
  (filterToParams_perPage_spec []).1

/-- C6 counterexample: the keys perPage and per_page both translate to
per_page, so two filters with the same key-to-value mapping in different
insertion orders produce different parameter maps, refuting unconditional
order independence. -/
theorem filterToParams_order_counterexample :
    mapGet (filterToParams [("perPage", JSValue.num 5), ("per_page", JSValue.str "7")])
        "per_page" = some "7" ∧
    mapGet (filterToParams [("per_page", JSValue.str "7"), ("perPage", JSValue.num 5)])
        "per_page" = some "5" ∧
    List.Perm [("perPage", JSValue.num 5), ("per_page", JSValue.str "7")]
      [("per_page", JSValue.str "7"), ("perPage", JSValue.num 5)] := by
  exact ⟨by decide, by decide, List.Perm.swap _ _ _⟩

/-- C6 (amended): filterToParams is a pure function of the entry list that is
order-independent whenever no two filter keys share the same snake_case
translation: permuted filters then have equal parameter lookups. Undefined
and null valued entries contribute nothing, every defined entry surfaces
under its snake_case key with arrays comma-joined, booleans rendered
true/false and numbers stringified. -/
theorem filterToParams_orderIndependent_spec (f1 f2 : FilterObject)
    (hnodup : (f1.map (fun kv => toSnakeCase kv.1)).Nodup)
    (hperm : f1.Perm f2) :
    (∀ k, mapGet (filterToParams f1) k = mapGet (filterToParams f2) k) ∧
    (∀ (g1 g2 : FilterObject) (k : String),
      loopParams (g1 ++ (k, JSValue.undefined) :: g2) = loopParams (g1 ++ g2) ∧
      loopParams (g1 ++ (k, JSValue.null) :: g2) = loopParams (g1 ++ g2)) ∧
    (∀ (k : String) (v : JSValue) (s : String), (k, v) ∈ f1 → paramValue v = some s →
      mapGet (filterToParams f1) (toSnakeCase k) = some s) ∧
    paramValue (JSValue.arr [JSAtom.num 1, JSAtom.num 2]) = some "1,2" ∧
    paramValue (JSValue.boolean true) = some "true" ∧
    paramValue (JSValue.num 42) = some "42" ∧
    paramValue JSValue.undefined = none ∧
    paramValue JSValue.null = none ∧
    toSnakeCase "categoriesExclude" = "categories_exclude" := by
  have hnd1 : (mapKeys (definedPairs f1)).Nodup :=
    (mapKeys_definedPairs_sublist f1).nodup hnodup
  have hd : (definedPairs f1).Perm (definedPairs f2) := hperm.filterMap _
  have hkeys : (mapKeys (definedPairs f1)).Perm (mapKeys (definedPairs f2)) := by
    rw [mapKeys_eq_map, mapKeys_eq_map]
    exact hd.map _
  have hloop : ∀ k, mapGet (loopParams f1) k = mapGet (loopParams f2) k := by
    intro k
    rw [mapGet_loopParams, mapGet_loopParams,
      lastValue_eq_mapGet_of_nodup _ k hnd1,
      lastValue_eq_mapGet_of_nodup _ k (hkeys.nodup_iff.mp hnd1)]
    exact mapGet_perm_of_nodup _ _ hd hnd1 k
  refine ⟨?_, ?_, ?_, by decide, by decide, by decide, rfl, rfl, by decide⟩
  · intro k
    rw [filterToParams, filterToParams, hloop "per_page"]
    by_cases hdef : (mapGet (loopParams f2) "per_page").isNone = true
    · rw [if_pos hdef, if_pos hdef, mapGet_mapSet, mapGet_mapSet]
      by_cases hk : "per_page" = k
      · rw [if_pos hk, if_pos hk]
      · rw [if_neg hk, if_neg hk]
        exact hloop k
    · rw [if_neg hdef, if_neg hdef]
      exact hloop k
  · intro g1 g2 k
    constructor
    · rw [loopParams, loopParams, List.foldl_append, List.foldl_append, List.foldl_cons]
      rfl
    · rw [loopParams, loopParams, List.foldl_append, List.foldl_append, List.foldl_cons]
      rfl
  · intro k v s hmem hval
    apply mapGet_filterToParams_of_some
    rw [mapGet_loopParams, lastValue_eq_mapGet_of_nodup _ _ hnd1]
    apply mapGet_of_mem_nodup _ _ _ hnd1
    have : (toSnakeCase k, s) ∈ definedPairs f1 := by
      rw [definedPairs]
      exact List.mem_filterMap.mpr ⟨(k, v), hmem, by rw [hval]; rfl⟩
    exact this

/-- Concrete instance of C6 (amended): two orderings of a filter with
distinct translated keys agree on the per_page parameter. -/
theorem filterToParams_orderIndependent_witness :
    mapGet (filterToParams [("perPage", JSValue.num 5), ("search", JSValue.str "x")])
        "per_page" =
      mapGet (filterToParams [("search", JSValue.str "x"), ("perPage", JSValue.num 5)])
        "per_page" :=
  (filterToParams_orderIndependent_spec
      [("perPage", JSValue.num 5), ("search", JSValue.str "x")]
      [("search", JSValue.str "x"), ("perPage", JSValue.num 5)]
      (by decide) (List.Perm.swap _ _ _)).1 "per_page"

end WPIntegration
